import Mathlib

/-
  Verification of the taxe-safe backend (result-validation-and-fallback pipeline).

  The development shallowly embeds the JavaScript/TypeScript sources:
  JSON values become an inductive `Json` type, the hand-written JSON
  handling (`JSON.parse`, truthiness, property access) becomes executable
  functions, and the services (AI client, OCR client, rate limiter, the
  /api/analyze route) become pure functions over explicit representations
  of their external interactions.
-/

namespace TaxeSafe

/-- Model of a JavaScript JSON value.  Numbers are kept as their source
lexeme so that no floating-point reasoning is needed (no claim inspects
numeric values). -/
inductive Json where
  | null
  | bool (b : Bool)
  | num (lexeme : String)
  | str (s : String)
  | arr (items : List Json)
  | obj (fields : List (String × Json))

/-- First-match association-list lookup, the model of JS property access
on a plain object. -/
def lookupField : List (String × Json) → String → Option Json
  | [], _ => none
  | (k, v) :: rest, key => if k = key then some v else lookupField rest key

/-- JS property access `value[key]`; `none` models `undefined`. -/
def Json.getField : Json → String → Option Json
  | Json.obj fs, key => lookupField fs key
  | _, _ => none

/-- `typeof v === "object" && v !== null` (arrays count as objects in JS). -/
def Json.isObjectType : Json → Bool
  | Json.arr _ => true
  | Json.obj _ => true
  | _ => false

/-- Truthiness of a numeric lexeme: zero-valued lexemes are falsy. -/
def numLexemeTruthy (l : String) : Bool :=
  l.data.any (fun c => decide ('1' ≤ c) && decide (c ≤ '9'))

/-- JS truthiness of a JSON value. -/
def Json.isTruthy : Json → Bool
  | Json.null => false
  | Json.bool b => b
  | Json.num l => numLexemeTruthy l
  | Json.str s => s ≠ ""
  | Json.arr _ => true
  | Json.obj _ => true

/-- Truthiness of a possibly-undefined value (`none` = `undefined`, falsy). -/
def optTruthy : Option Json → Bool
  | some v => v.isTruthy
  | none => false

/-- `Object.keys(v).length` for the value shapes the sources inspect. -/
def Json.keyCount : Json → Nat
  | Json.obj fs => fs.length
  | Json.arr xs => xs.length
  | _ => 0

/-! ### A JSON text decoder, the model of `JSON.parse` -/

def isWsChar (c : Char) : Bool :=
  c = ' ' || c = '\n' || c = '\t' || c = '\r'

/-- Drop leading JSON whitespace. -/
def skipWs : List Char → List Char
  | [] => []
  | c :: cs => if isWsChar c then skipWs cs else c :: cs

def hexDigitVal (c : Char) : Option Nat :=
  if '0' ≤ c ∧ c ≤ '9' then some (c.toNat - '0'.toNat)
  else if 'a' ≤ c ∧ c ≤ 'f' then some (c.toNat - 'a'.toNat + 10)
  else if 'A' ≤ c ∧ c ≤ 'F' then some (c.toNat - 'A'.toNat + 10)
  else none

/-- Decode the body of a JSON string literal (after the opening quote),
returning the decoded characters and the input following the closing
quote. -/
def decodeStringBody : Nat → List Char → Option (List Char × List Char)
  | 0, _ => none
  | _ + 1, [] => none
  | fuel + 1, c :: cs =>
    if c = '"' then some ([], cs)
    else if c = '\\' then
      match cs with
      | [] => none
      | e :: cs' =>
        let cont (d : Char) (rest : List Char) : Option (List Char × List Char) :=
          match decodeStringBody fuel rest with
          | some (body, tail) => some (d :: body, tail)
          | none => none
        if e = '"' then cont '"' cs'
        else if e = '\\' then cont '\\' cs'
        else if e = '/' then cont '/' cs'
        else if e = 'b' then cont (Char.ofNat 8) cs'
        else if e = 'f' then cont (Char.ofNat 12) cs'
        else if e = 'n' then cont '\n' cs'
        else if e = 'r' then cont '\r' cs'
        else if e = 't' then cont '\t' cs'
        else if e = 'u' then
          match cs' with
          | h1 :: h2 :: h3 :: h4 :: cs'' =>
            match hexDigitVal h1, hexDigitVal h2, hexDigitVal h3, hexDigitVal h4 with
            | some a, some b, some c3, some d4 =>
              cont (Char.ofNat (((a * 16 + b) * 16 + c3) * 16 + d4)) cs''
            | _, _, _, _ => none
          | _ => none
        else none
    else if c.toNat < 32 then none
    else
      match decodeStringBody fuel cs with
      | some (body, tail) => some (c :: body, tail)
      | none => none

/-- Split off a maximal run of decimal digits. -/
def spanDigits : List Char → List Char × List Char
  | [] => ([], [])
  | c :: cs =>
    if '0' ≤ c ∧ c ≤ '9' then
      let (ds, rest) := spanDigits cs
      (c :: ds, rest)
    else ([], c :: cs)

/-- Lex a JSON number (sign, integer part, optional fraction and
exponent), returning its lexeme and the remaining input. -/
def lexNumber (cs : List Char) : Option (List Char × List Char) :=
  let (sign, cs1) :=
    match cs with
    | '-' :: rest => (['-'], rest)
    | _ => (([] : List Char), cs)
  match cs1 with
  | [] => none
  | d :: rest =>
    if ¬('0' ≤ d ∧ d ≤ '9') then none
    else
      let (intPart, cs2) :=
        if d = '0' then ([d], rest)
        else
          let (ds, r) := spanDigits rest
          (d :: ds, r)
      let fracRes : Option (List Char × List Char) :=
        match cs2 with
        | '.' :: r =>
          let (ds, r') := spanDigits r
          if ds = [] then none else some ('.' :: ds, r')
        | _ => some ([], cs2)
      match fracRes with
      | none => none
      | some (fracPart, cs3) =>
        let expRes : Option (List Char × List Char) :=
          match cs3 with
          | e :: r =>
            if e = 'e' ∨ e = 'E' then
              let (sgn, r1) :=
                match r with
                | s :: r' => if s = '+' ∨ s = '-' then ([s], r') else (([] : List Char), r)
                | [] => (([] : List Char), r)
              let (ds, r2) := spanDigits r1
              if ds = [] then none else some (e :: (sgn ++ ds), r2)
            else some ([], cs3)
          | [] => some ([], cs3)
        match expRes with
        | none => none
        | some (expPart, cs4) => some (sign ++ intPart ++ fracPart ++ expPart, cs4)

def startsWithCh : List Char → List Char → Bool
  | [], _ => true
  | _ :: _, [] => false
  | p :: ps, c :: cs => p = c && startsWithCh ps cs

mutual

/-- Decode one JSON value (fuel-bounded recursive-descent). -/
def parseValueF : Nat → List Char → Option (Json × List Char)
  | 0, _ => none
  | fuel + 1, cs =>
    let cs := skipWs cs
    match cs with
    | [] => none
    | c :: rest =>
      if c = '"' then
        match decodeStringBody (rest.length + 1) rest with
        | some (body, tail) => some (Json.str (String.mk body), tail)
        | none => none
      else if c = '[' then parseItemsF fuel rest
      else if c = '\x7b' then parseMembersF fuel rest
      else if startsWithCh ['t', 'r', 'u', 'e'] cs then
        some (Json.bool true, cs.drop 4)
      else if startsWithCh ['f', 'a', 'l', 's', 'e'] cs then
        some (Json.bool false, cs.drop 5)
      else if startsWithCh ['n', 'u', 'l', 'l'] cs then
        some (Json.null, cs.drop 4)
      else
        match lexNumber cs with
        | some (lexeme, tail) => some (Json.num (String.mk lexeme), tail)
        | none => none

/-- Decode the items of a JSON array, after the opening bracket. -/
def parseItemsF : Nat → List Char → Option (Json × List Char)
  | 0, _ => none
  | fuel + 1, cs =>
    let cs := skipWs cs
    match cs with
    | ']' :: rest => some (Json.arr [], rest)
    | _ =>
      match parseValueF fuel cs with
      | none => none
      | some (v, rest) =>
        match skipWs rest with
        | ',' :: rest2 =>
          match parseItemsF fuel rest2 with
          | some (Json.arr vs, tail) => some (Json.arr (v :: vs), tail)
          | _ => none
        | ']' :: rest2 => some (Json.arr [v], rest2)
        | _ => none

/-- Decode the members of a JSON object, after the opening brace. -/
def parseMembersF : Nat → List Char → Option (Json × List Char)
  | 0, _ => none
  | fuel + 1, cs =>
    let cs := skipWs cs
    match cs with
    | '\x7d' :: rest => some (Json.obj [], rest)
    | '"' :: rest =>
      match decodeStringBody (rest.length + 1) rest with
      | none => none
      | some (key, afterKey) =>
        match skipWs afterKey with
        | ':' :: afterColon =>
          match parseValueF fuel afterColon with
          | none => none
          | some (v, rest2) =>
            match skipWs rest2 with
            | ',' :: rest3 =>
              match parseMembersF fuel rest3 with
              | some (Json.obj fs, tail) =>
                some (Json.obj ((String.mk key, v) :: fs), tail)
              | _ => none
            | '\x7d' :: rest3 => some (Json.obj [(String.mk key, v)], rest3)
            | _ => none
        | _ => none
    | _ => none

end

/-- `JSON.parse` over a character list: decode one value and require the
rest of the input to be whitespace; `none` models a thrown `SyntaxError`. -/
def jsonParseL (cs : List Char) : Option Json :=
  match parseValueF (cs.length + 1) cs with
  | some (j, rest) => if skipWs rest = [] then some j else none
  | none => none

/-- `JSON.parse` on a string. -/
def jsonParse (s : String) : Option Json :=
  jsonParseL s.data

/-! ### `safeJsonParse` (utils/safeJson.js): markdown-fence unwrap then decode -/

/-- `String.prototype.trim`: strip leading and trailing whitespace. -/
def trimChars (cs : List Char) : List Char :=
  (skipWs (skipWs cs).reverse).reverse

/-- Split the input at the first occurrence of `pat` (assumed non-empty),
returning the text before the occurrence and the text after it. -/
def splitFirst (pat : List Char) : List Char → Option (List Char × List Char)
  | [] => none
  | c :: cs =>
    if startsWithCh pat (c :: cs) then some ([], (c :: cs).drop pat.length)
    else
      match splitFirst pat cs with
      | some (pre, post) => some (c :: pre, post)
      | none => none

/-- The regex `/```json\s*([\s\S]*?)\s*```/`, up to the trimming that the
caller applies to the captured group: the text between the first
occurrence of a ```` ```json ```` opener and the next ```` ``` ````. -/
def matchFenceJson (cs : List Char) : Option (List Char) :=
  match splitFirst ("```json").data cs with
  | none => none
  | some (_, afterTag) =>
    match splitFirst ("```").data afterTag with
    | none => none
    | some (inner, _) => some inner

/-- The regex ``/```\s*([\s\S]*?)\s*```/`` likewise: the text between the
first ```` ``` ```` and the next one. -/
def matchFenceAny (cs : List Char) : Option (List Char) :=
  match splitFirst ("```").data cs with
  | none => none
  | some (_, afterOpen) =>
    match splitFirst ("```").data afterOpen with
    | none => none
    | some (inner, _) => some inner

/-- `safeJsonParse` from utils/safeJson.js: reject falsy/non-string input,
trim, strip a markdown code fence (preferring the `json`-tagged pattern),
trim the captured group, and `JSON.parse` the remainder; `none` models the
`null` returned on any failure. -/
def safeJsonParse (s : String) : Option Json :=
  if s = "" then none
  else
    let clean := trimChars s.data
    let clean :=
      match matchFenceJson clean with
      | some inner => trimChars inner
      | none =>
        match matchFenceAny clean with
        | some inner => trimChars inner
        | none => clean
    jsonParseL clean

/-! ### Response Schema Validator (services/aiService.js `isValidResponse`) -/

def validRiskLevels : List String := ["LOW", "MEDIUM", "HIGH"]

/-- `typeof v === "string"` on a possibly-undefined value. -/
def isStrField : Option Json → Bool
  | some (Json.str _) => true
  | _ => false

/-- Validation of one element of `detectedIssues`: a truthy object whose
`id`, `title`, `short` and `long` properties are all strings. -/
def isValidIssue (issue : Json) : Bool :=
  issue.isTruthy && issue.isObjectType &&
  isStrField (issue.getField "id") && isStrField (issue.getField "title") &&
  isStrField (issue.getField "short") && isStrField (issue.getField "long")

/-- `AIService.isValidResponse`: a truthy object whose `riskLevel` is one
of the accepted literals, whose `summary` is a string, and whose
`detectedIssues` is an array of valid issues. -/
def isValidResponse (r : Json) : Bool :=
  r.isTruthy && r.isObjectType &&
  (match r.getField "riskLevel" with
   | some (Json.str s) => validRiskLevels.contains s
   | _ => false) &&
  isStrField (r.getField "summary") &&
  (match r.getField "detectedIssues" with
   | some (Json.arr issues) => issues.all isValidIssue
   | _ => false)

/-! ### Fallback Provider (src/mock/mockResult.ts `mockAnalysisResult`) -/

def mockIssue1 : Json := Json.obj
  [("id", Json.str "i1"),
   ("title", Json.str "Possible Wrong ITR Form Selected"),
   ("short", Json.str "Capital gains detected but ITR-1 selected. ITR-2 or ITR-3 may be required."),
   ("long", Json.str "You have indicated capital gains in your responses, but ITR-1 was selected. ITR-1 is only for individuals with income from salary, one house property, other sources (interest, etc.), and agricultural income up to Rs. 5,000. If you have capital gains, you should file ITR-2 (if no business income) or ITR-3 (if you have business income). Filing the wrong form can lead to rejection or reassessment.")]

def mockIssue2 : Json := Json.obj
  [("id", Json.str "i2"),
   ("title", Json.str "Missing TDS Information"),
   ("short", Json.str "Form 26AS not uploaded. TDS verification recommended."),
   ("long", Json.str "Form 26AS contains details of all tax deducted at source (TDS) and tax collected at source (TCS) on your behalf. Without verifying Form 26AS, you may miss claiming TDS credits, leading to overpayment of taxes. Please upload Form 26AS to ensure all TDS is properly accounted for.")]

def mockIssue3 : Json := Json.obj
  [("id", Json.str "i3"),
   ("title", Json.str "Potential HRA Mismatch"),
   ("short", Json.str "HRA claimed but rent receipt details incomplete."),
   ("long", Json.str "House Rent Allowance (HRA) exemption requires proper documentation including rent receipts and landlord PAN (if annual rent exceeds Rs. 1,00,000). The provided information appears incomplete. Ensure you have valid rent receipts and landlord PAN details before claiming HRA exemption.")]

def mockIssue4 : Json := Json.obj
  [("id", Json.str "i4"),
   ("title", Json.str "Section 80C Limit Check"),
   ("short", Json.str "Total deductions under Section 80C exceed Rs. 1,50,000 limit."),
   ("long", Json.str "The maximum deduction allowed under Section 80C is Rs. 1,50,000 per financial year. Your total claimed deductions appear to exceed this limit. Please verify that the sum of all Section 80C deductions (ELSS, PPF, NSC, life insurance premium, principal repayment of home loan, etc.) does not exceed Rs. 1,50,000.")]

/-- The fixed canned result of the Fallback Provider. -/
def mockAnalysisResult : Json := Json.obj
  [("riskLevel", Json.str "MEDIUM"),
   ("summary", Json.str "Based on the provided information, several potential issues were identified. Please review the detected issues carefully."),
   ("detectedIssues", Json.arr [mockIssue1, mockIssue2, mockIssue3, mockIssue4])]

/-- Modelled from the spec: the JS mock module (mock/mockResult.js,
required by services/aiService.js) is not among the sources; per the
Fallback Provider contract and the identical TS mock in
src/mock/mockResult.ts, `getMockResult` returns the fixed canned result. -/
def getMockResult : Json := mockAnalysisResult

/-- `AIService.analyzeFallback`: returns `getMockResult()`; its internal
try/catch cannot fire in the model, so the ultimate minimal response is
unreachable. -/
def analyzeFallback : Json := getMockResult

/-! ### AI Analysis Client (services/aiService.js) -/

/-- Escape a character for a JSON string literal (quote and backslash;
other characters pass through, which is all the prompt needs). -/
def escapeChar (c : Char) : List Char :=
  if c = '"' then ['\\', '"']
  else if c = '\\' then ['\\', '\\']
  else if c = '\n' then ['\\', 'n']
  else if c = '\t' then ['\\', 't']
  else if c = '\r' then ['\\', 'r']
  else [c]

def escapeString (s : String) : String :=
  String.mk (s.data.flatMap escapeChar)

mutual

/-- `JSON.stringify` (compact form; the source pretty-prints with a
2-space indent, a whitespace-only difference that nothing observes). -/
def Json.stringify : Json → String
  | Json.null => "null"
  | Json.bool b => if b then "true" else "false"
  | Json.num l => l
  | Json.str s => "\"" ++ escapeString s ++ "\""
  | Json.arr xs => "[" ++ stringifyItems xs ++ "]"
  | Json.obj fs => "\x7b" ++ stringifyFields fs ++ "\x7d"

def stringifyItems : List Json → String
  | [] => ""
  | [x] => Json.stringify x
  | x :: xs => Json.stringify x ++ "," ++ stringifyItems xs

def stringifyFields : List (String × Json) → String
  | [] => ""
  | [(k, v)] => "\"" ++ escapeString k ++ "\":" ++ Json.stringify v
  | (k, v) :: fs => "\"" ++ escapeString k ++ "\":" ++ Json.stringify v ++ "," ++ stringifyFields fs

end

/-- Opening of the instructional template of `AIService.buildPrompt` (the
full prose is abridged; no claim observes the prompt text, only that it is
non-empty). -/
def promptHeader : String :=
  "You are a tax filing expert assistant. Analyze the following tax filing information and identify potential mistakes, errors, or issues.\n\nUsers Answers from Question Wizard:\n"

def promptOcrHeader : String :=
  "\n\nExtracted Text from Uploaded Documents (Salary Slip, Form 26AS, etc.):\n"

def promptTail : String :=
  "\n\nPlease analyze this information and return a JSON response with the required structure.\n\nReturn ONLY valid JSON, no additional text or markdown formatting."

/-- `AIService.buildPrompt`: serialize the answers, embed the OCR text
when it is non-blank, append the output-schema directive.  Its JS
try/catch can only fire on a `JSON.stringify` failure, impossible here. -/
def buildPrompt (answers : Json) (ocrText : String) : String :=
  promptHeader ++ Json.stringify answers ++
    (if trimChars ocrText.data ≠ [] then promptOcrHeader ++ ocrText else "") ++
    promptTail

/-- The environment variables read by the `AIService` constructor;
`none` models an unset variable. -/
structure AIEnv where
  endpointVar : Option String
  keyVar : Option String
  deploymentVar : Option String
  useMockVar : Option String

/-- Truthiness of an environment variable (unset and empty are falsy). -/
def envTruthy : Option String → Bool
  | some s => s ≠ ""
  | none => false

/-- `USE_MOCK_AI === "true" || USE_MOCK_AI === "1"`. -/
def useMockFlag (e : AIEnv) : Bool :=
  e.useMockVar = some "true" || e.useMockVar = some "1"

/-- `this.useMock = useMockAI || !endpoint || !key || !deploymentName`. -/
def useMock (e : AIEnv) : Bool :=
  useMockFlag e || !envTruthy e.endpointVar || !envTruthy e.keyVar ||
    !envTruthy e.deploymentVar

/-- `endpoint.replace(/\/$/, "")`: drop one trailing slash. -/
def dropTrailingSlash (s : String) : String :=
  match s.data.reverse with
  | '/' :: rest => String.mk rest.reverse
  | _ => s

/-- The `this.config` object: set in the constructor only when mock mode
is off. -/
def aiConfig (e : AIEnv) : Option (String × String × String) :=
  if useMock e then none
  else
    match e.endpointVar, e.keyVar, e.deploymentVar with
    | some ep, some k, some d => some (dropTrailingSlash ep, k, d)
    | _, _, _ => none

/-- `AIService.isConfigured()`: `!this.useMock && this.config !== null`. -/
def isConfiguredAI (e : AIEnv) : Bool :=
  !useMock e && (aiConfig e).isSome

/-- The possible outcomes of the single `axios.post` to the model
provider: `failure` models any thrown error (timeout, non-success status,
transport error); `success data` models a resolved response with body
`data`. -/
inductive AIOutcome where
  | failure
  | success (data : Json)

/-- `response.data?.choices?.[0]?.message?.content`; `none` models
`undefined` along any step of the optional chain. -/
def contentOf (data : Json) : Option Json :=
  match data.getField "choices" with
  | some choices =>
    (match choices with
     | Json.arr (c :: _) => some c
     | Json.arr [] => none
     | Json.obj fs => lookupField fs "0"
     | _ => none) |>.bind fun c =>
      match c.getField "message" with
      | some m => m.getField "content"
      | none => none
  | none => none

/-- `safeJsonParse` applied to the extracted content value (its own
falsy/non-string guard included). -/
def safeJsonParseVal : Option Json → Option Json
  | some (Json.str s) => safeJsonParse s
  | _ => none

/-- The value produced from one provider interaction inside the big
try/catch of `analyzeWithAzureOpenAI`: every throw lands in the catch,
which returns the fallback. -/
def aiOutcomeResult (outcome : AIOutcome) : Json :=
  match outcome with
  | AIOutcome.failure => analyzeFallback
  | AIOutcome.success data =>
    let content := contentOf data
    if !optTruthy content then analyzeFallback
    else
      match safeJsonParseVal content with
      | none => analyzeFallback
      | some parsed => if isValidResponse parsed then parsed else analyzeFallback

/-- `AIService.analyzeWithAzureOpenAI`: throws (an `Except.error`) only
from its unguarded configuration check; everything inside the try resolves
to a value. -/
def analyzeWithAzureOpenAI (e : AIEnv) (answers : Json) (ocrText : String)
    (outcome : AIOutcome) : Except String Json :=
  match aiConfig e with
  | none => Except.error "Azure OpenAI not configured"
  | some _ =>
    if buildPrompt answers ocrText = "" then Except.ok analyzeFallback
    else Except.ok (aiOutcomeResult outcome)

/-- `AIService.analyzeInput`: the total entry point — call the provider
when configured (recovering from a throw with the fallback), otherwise
return the fallback immediately. -/
def analyzeInput (e : AIEnv) (answers : Json) (ocrText : String)
    (outcome : AIOutcome) : Json :=
  if isConfiguredAI e then
    match analyzeWithAzureOpenAI e answers ocrText outcome with
    | Except.ok r => r
    | Except.error _ => analyzeFallback
  else analyzeFallback

/-! ### Document Text Extractor (services/ocrService.js) -/

/-- The environment variables read by the `OCRService` constructor. -/
structure OCREnv where
  endpointVar : Option String
  keyVar : Option String

/-- `OCRService.isConfigured()`: the config object is built iff both
endpoint and key are truthy. -/
def isConfiguredOCR (e : OCREnv) : Bool :=
  envTruthy e.endpointVar && envTruthy e.keyVar

/-- Outcome of one poll of the analysis job: the `status` field observed,
or a thrown poll error (caught inside the loop, counted as an attempt). -/
inductive PollOutcome where
  | pending
  | succeeded (content : String)
  | failed
  | pollError

/-- One file's whole interaction with the document-analysis provider:
the submit step can throw, return no `operation-location` header, or an
unusable one; otherwise the ith poll observes `poll i`. -/
inductive OCRInteraction where
  | submitError
  | noOperationLocation
  | noResultId
  | submitted (poll : Nat → PollOutcome)

/-- Fixed poll interval (milliseconds) of the source's
`setTimeout(resolve, 1000)`; the model keeps real time as data only. -/
def pollDelayMs : Nat := 1000

/-- Fixed attempt budget of the poll loop. -/
def maxAttempts : Nat := 10

/-- The poll loop of `OCRService.extractText`: starting at attempt index
`i` with `fuel` attempts left, return the content on `succeeded`, the
empty string on `failed`, and keep polling on a pending status or a caught
poll error; an exhausted budget yields the empty string (a timeout). -/
def pollLoop (poll : Nat → PollOutcome) : Nat → Nat → String
  | _, 0 => ""
  | i, fuel + 1 =>
    match poll i with
    | PollOutcome.succeeded content => content
    | PollOutcome.failed => ""
    | PollOutcome.pending => pollLoop poll (i + 1) fuel
    | PollOutcome.pollError => pollLoop poll (i + 1) fuel

/-- `OCRService.extractText`: empty string when not configured; the
submit-phase failures and the outer catch all degrade to the empty string;
otherwise run the poll loop. -/
def extractText (e : OCREnv) (interaction : OCRInteraction) : String :=
  if !isConfiguredOCR e then ""
  else
    match interaction with
    | OCRInteraction.submitError => ""
    | OCRInteraction.noOperationLocation => ""
    | OCRInteraction.noResultId => ""
    | OCRInteraction.submitted poll => pollLoop poll 0 maxAttempts

/-- The fixed separator between per-document extraction results. -/
def ocrSeparator : String := "\n\n---\n\n"

/-- `OCRService.extractTextFromFiles`: empty string for an empty list;
otherwise extract every file, drop the empty per-file results, and join
the rest with the fixed separator (input order preserved). -/
def extractTextFromFiles (e : OCREnv) (files : List OCRInteraction) : String :=
  if files.length = 0 then ""
  else
    String.intercalate ocrSeparator
      ((files.map (extractText e)).filter (fun t => t ≠ ""))

/-! ### Input validation (utils/validateInput.js) -/

/-- `parseAnswers`: a string is `JSON.parse`d (`null` on a parse error); a
non-null object — arrays included — passes through; anything else is
`null`.  `none` models the `null` result. -/
def parseAnswersJS : Json → Option Json
  | Json.str s => jsonParse s
  | Json.arr xs => some (Json.arr xs)
  | Json.obj fs => some (Json.obj fs)
  | _ => none

/-- `validateAnswers`: `some msg` is the failed validation's error string,
`none` means valid.  The input `none` models a `null` answers value. -/
def validateAnswersJS (answers : Option Json) : Option String :=
  if !optTruthy answers then some "Answers field is required"
  else
    match answers with
    | some (Json.obj _) => none
    | some (Json.str s) =>
      (match jsonParse s with
       | some (Json.obj _) => none
       | _ => some "Answers must be a valid JSON object")
    | _ => some "Answers must be a valid JSON object"

/-! ### The JS analyze route (routes/analyze.js) and error handler
(middlewares/errorHandler.js) -/

/-- Answers extraction of the route handler: use `req.body.answers` when
truthy; otherwise fall back to the whole body when it is a truthy object
with at least one key whose `salarySlip` and `form26as` properties are
both falsy; otherwise the answers stay `null`. -/
def answersCandidate (body : Json) : Option Json :=
  if optTruthy (body.getField "answers") then
    match body.getField "answers" with
    | some a => parseAnswersJS a
    | none => none
  else if body.isTruthy && body.isObjectType && body.keyCount ≠ 0 &&
      !optTruthy (body.getField "salarySlip") &&
      !optTruthy (body.getField "form26as") then
    parseAnswersJS body
  else none

/-- Step 1 of the route handler: validate the extracted candidate,
propagating the validation error (thrown as a 400 `createError`). -/
def finishNormalize (candidate : Option Json) : Except String Json :=
  match validateAnswersJS candidate with
  | some msg => Except.error msg
  | none => Except.ok (candidate.getD Json.null)

/-- The Input Normalizer of the JS pipeline: body in, canonical answers or
input error out. -/
def normalize (body : Json) : Except String Json :=
  finishNormalize (answersCandidate body)

/-- An HTTP response of the model: a status code and a JSON body. -/
structure HttpResponse where
  status : Nat
  body : Json

def errBody (msg : String) : Json := Json.obj [("error", Json.str msg)]

/-- The JS error handler (middlewares/errorHandler.js): keep the error's
status code but always substitute the generic client message. -/
def jsErrorHandler (statusCode : Nat) : HttpResponse :=
  ⟨statusCode, errBody "Something went wrong. Please try again."⟩

/-- The POST /api/analyze handler of the JS server: normalize (a failure
throws a 400 error into the generic error handler), extract OCR text when
files are present and OCR is configured, analyze (total), and double-check
the result before the 200 response. -/
def analyzeHandler (aiEnv : AIEnv) (ocrEnv : OCREnv) (body : Json)
    (files : List OCRInteraction) (outcome : AIOutcome) : HttpResponse :=
  match normalize body with
  | Except.error _ => jsErrorHandler 400
  | Except.ok answers =>
    let ocrText :=
      if files.length ≠ 0 ∧ isConfiguredOCR ocrEnv = true then
        extractTextFromFiles ocrEnv files
      else ""
    let result := analyzeInput aiEnv answers ocrText outcome
    if result.isTruthy && result.isObjectType then ⟨200, result⟩
    else ⟨200, getMockResult⟩

/-! ### Rate limiter (src/middlewares/rateLimit.ts) -/

structure RateEntry where
  count : Nat
  resetTime : Nat
deriving DecidableEq

/-- The in-memory per-IP store (an association list keyed by IP). -/
abbrev RateStore := List (String × RateEntry)

def WINDOW_MS : Nat := 15 * 60 * 1000

def MAX_REQUESTS : Nat := 100

def storeLookup : RateStore → String → Option RateEntry
  | [], _ => none
  | (k, e) :: rest, ip => if k = ip then some e else storeLookup rest ip

/-- `store[ip] = entry`: replace the binding if present, else add it. -/
def storeSet : RateStore → String → RateEntry → RateStore
  | [], ip, e => [(ip, e)]
  | (k, old) :: rest, ip, e =>
    if k = ip then (k, e) :: rest else (k, old) :: storeSet rest ip e

/-- The sweep that runs when the store holds more than 1000 entries:
delete every expired binding. -/
def storeCleanup (store : RateStore) (now : Nat) : RateStore :=
  if store.length > 1000 then
    store.filter (fun kv => !decide (kv.2.resetTime < now))
  else store

inductive RateDecision where
  | allowed
  | limited (retryAfter : Nat)
deriving DecidableEq

/-- One pass of the `rateLimit` middleware for IP `ip` at time `now`:
missing or expired entries are replaced by a fresh count of 1 and the
request passes; otherwise the count is incremented and the request is
rejected with a retry-after (in whole seconds, rounded up) once the count
exceeds the maximum. -/
def rateLimitStep (store : RateStore) (ip : String) (now : Nat) :
    RateStore × RateDecision :=
  let store := storeCleanup store now
  match storeLookup store ip with
  | none => (storeSet store ip ⟨1, now + WINDOW_MS⟩, RateDecision.allowed)
  | some e =>
    if e.resetTime < now then
      (storeSet store ip ⟨1, now + WINDOW_MS⟩, RateDecision.allowed)
    else
      let bumped : RateEntry := ⟨e.count + 1, e.resetTime⟩
      let store := storeSet store ip bumped
      if bumped.count > MAX_REQUESTS then
        (store, RateDecision.limited ((e.resetTime - now + 999) / 1000))
      else (store, RateDecision.allowed)

/-! ### The TS AI service variant (src/services/aiService.ts) -/

def validRiskLevelsTS : List String := ["LOW", "MEDIUM", "HIGH", "CRITICAL"]

/-- The TS issue check: a truthy value whose `id`, `title`, `short` and
`long` properties are all strings (no explicit typeof-object test). -/
def isValidIssueTS (issue : Json) : Bool :=
  issue.isTruthy &&
  isStrField (issue.getField "id") && isStrField (issue.getField "title") &&
  isStrField (issue.getField "short") && isStrField (issue.getField "long")

/-- The TS `isValidResponse`: like the JS one but with `CRITICAL` in the
risk enum. -/
def isValidResponseTS (r : Json) : Bool :=
  r.isTruthy && r.isObjectType &&
  (match r.getField "riskLevel" with
   | some (Json.str s) => validRiskLevelsTS.contains s
   | _ => false) &&
  isStrField (r.getField "summary") &&
  (match r.getField "detectedIssues" with
   | some (Json.arr issues) => issues.all isValidIssueTS
   | _ => false)

/-- Environment of the TS `AIService` constructor (`FALLBACK_TO_MOCK`
instead of `USE_MOCK_AI`). -/
structure AIEnvTS where
  endpointVar : Option String
  keyVar : Option String
  deploymentVar : Option String
  fallbackMockVar : Option String

def fallbackToMock (e : AIEnvTS) : Bool :=
  e.fallbackMockVar = some "true" || e.fallbackMockVar = some "1"

/-- The TS `this.config`: built iff all three variables are truthy and
the force-mock flag is off. -/
def aiConfigTS (e : AIEnvTS) : Option (String × String × String) :=
  match e.endpointVar, e.keyVar, e.deploymentVar with
  | some ep, some k, some d =>
    if ep ≠ "" ∧ k ≠ "" ∧ d ≠ "" ∧ fallbackToMock e = false then
      some (dropTrailingSlash ep, k, d)
    else none
  | _, _, _ => none

def isConfiguredAITS (e : AIEnvTS) : Bool :=
  (aiConfigTS e).isSome && !fallbackToMock e

/-- The inline fence-unwrap-then-parse of the TS client: the capture of
the first matching fence pattern, or the whole content, trimmed and
decoded. -/
def decodeContentTS (content : String) : Option Json :=
  let inner :=
    match matchFenceJson content.data with
    | some i => some i
    | none => matchFenceAny content.data
  jsonParseL (trimChars (inner.getD content.data))

/-- Result of one provider interaction inside the TS
`analyzeWithAzureOpenAI` try block (non-string content throws at
`content.match`, landing in the catch). -/
def aiOutcomeResultTS (outcome : AIOutcome) : Json :=
  match outcome with
  | AIOutcome.failure => mockAnalysisResult
  | AIOutcome.success data =>
    let content := contentOf data
    if !optTruthy content then mockAnalysisResult
    else
      match content with
      | some (Json.str s) =>
        (match decodeContentTS s with
         | none => mockAnalysisResult
         | some parsed =>
           if isValidResponseTS parsed then parsed else mockAnalysisResult)
      | _ => mockAnalysisResult

/-- The TS `AIService.analyze`: total — provider interaction when
configured (any throw recovered with the mock), mock otherwise. -/
def analyzeTS (e : AIEnvTS) (outcome : AIOutcome) : Json :=
  if isConfiguredAITS e then aiOutcomeResultTS outcome else mockAnalysisResult

/-! ### The TS analyze endpoint (src/index.ts pipeline: rateLimit →
upload → express-validator chain → checkValidation → controller →
errorHandler) -/

/-- Outcome of the multer upload middleware (collaborator transport). -/
inductive UploadOutcome where
  | ok
  | sizeLimit
  | countLimit
  | otherMulter (msg : String)
  | otherError (msg : String)

/-- `body("answers").notEmpty()` failing: the stringified value is empty
(absent, `null`, the empty string, or an empty array). -/
def notEmptyFailsTS (v : Option Json) : Bool :=
  match v with
  | none => true
  | some Json.null => true
  | some (Json.str s) => s = ""
  | some (Json.arr xs) => xs.isEmpty
  | _ => false

/-- The custom validator of the TS `validateAnswers` chain: any non-null
object (arrays included), or a string that parses to one. -/
def customOkTS (v : Option Json) : Bool :=
  match v with
  | some (Json.arr _) => true
  | some (Json.obj _) => true
  | some (Json.str s) =>
    (match jsonParse s with
     | some (Json.arr _) => true
     | some (Json.obj _) => true
     | _ => false)
  | _ => false

/-- The failed validators' messages, in chain order (express-validator
runs every validator and `checkValidation` joins all messages). -/
def validationErrorsTS (v : Option Json) : List String :=
  (if notEmptyFailsTS v then ["Answers field is required"] else []) ++
  (if customOkTS v then [] else ["Answers must be a valid JSON object"])

/-- The POST /api/analyze pipeline of the TS server, producing the HTTP
response: the rate limiter can reject with 429; upload errors answer 400;
validation failures throw 400 errors whose messages the TS error handler
echoes; the controller re-parses a string answers value (its parse-error
branch, a 400, and its missing-answers throw, a 500, are both
unreachable once validation passed) and answers 200 with the analysis
result. -/
def analyzeEndpointTS (store : RateStore) (ip : String) (now : Nat)
    (upload : UploadOutcome) (body : Json) (aiEnv : AIEnvTS) (_ocrEnv : OCREnv)
    (_files : List OCRInteraction) (outcome : AIOutcome) : HttpResponse :=
  match (rateLimitStep store ip now).2 with
  | RateDecision.limited retryAfter =>
    ⟨429, Json.obj [("error", Json.str "Too many requests. Please try again later."),
                    ("retryAfter", Json.num (toString retryAfter))]⟩
  | RateDecision.allowed =>
    match upload with
    | UploadOutcome.sizeLimit => ⟨400, errBody "File size exceeds the maximum limit of 5MB"⟩
    | UploadOutcome.countLimit => ⟨400, errBody "Too many files. Maximum 2 files allowed."⟩
    | UploadOutcome.otherMulter msg => ⟨400, errBody ("Upload error: " ++ msg)⟩
    | UploadOutcome.otherError msg => ⟨400, errBody msg⟩
    | UploadOutcome.ok =>
      let v := body.getField "answers"
      match validationErrorsTS v with
      | msg :: more => ⟨400, errBody (String.intercalate ", " (msg :: more))⟩
      | [] =>
        if !optTruthy v then ⟨500, errBody "Answers field is required"⟩
        else
          match v with
          | some (Json.str s) =>
            (match jsonParse s with
             | none => ⟨400, errBody "Invalid JSON format in answers field"⟩
             | some _ => ⟨200, analyzeTS aiEnv outcome⟩)
          | some _ => ⟨200, analyzeTS aiEnv outcome⟩
          | none => ⟨500, errBody "Answers field is required"⟩

/-! ## Concrete values used by the scenario theorems and witnesses -/

def envUnconfigured : AIEnv := ⟨none, none, none, none⟩

def envConfigured : AIEnv :=
  ⟨some "https://ai.example.com", some "test-key", some "gpt-4", none⟩

def ocrEnvNone : OCREnv := ⟨none, none⟩

def ocrEnvSet : OCREnv := ⟨some "https://ocr.example.com", some "ocr-key"⟩

def aiEnvTSNone : AIEnvTS := ⟨none, none, none, none⟩

/-- The spec scenario request body: `answers` as the form-field JSON
string from §8 of the spec. -/
def scenarioBody : Json :=
  Json.obj [("answers", Json.str "\x7b\"itrForm\":\"ITR-1\",\"hasCapitalGains\":true\x7d")]

/-! ## Shared validity lemmas -/

theorem mock_isValid : isValidResponse mockAnalysisResult = true := rfl

theorem fallback_isValid : isValidResponse analyzeFallback = true := rfl

theorem aiOutcomeResult_valid (o : AIOutcome) :
    isValidResponse (aiOutcomeResult o) = true := by
  cases o with
  | failure => exact fallback_isValid
  | success d =>
    simp only [aiOutcomeResult]
    cases htr : optTruthy (contentOf d) with
    | false => simp [htr, fallback_isValid]
    | true =>
      simp only [htr, Bool.not_true, Bool.false_eq_true, if_false]
      cases hp : safeJsonParseVal (contentOf d) with
      | none => exact fallback_isValid
      | some parsed =>
        cases hv : isValidResponse parsed with
        | false => simp [hv, fallback_isValid]
        | true => simp [hv]

theorem analyzeWithAzure_ok_valid (e : AIEnv) (a : Json) (t : String)
    (o : AIOutcome) (r : Json) (h : analyzeWithAzureOpenAI e a t o = Except.ok r) :
    isValidResponse r = true := by
  unfold analyzeWithAzureOpenAI at h
  cases hc : aiConfig e with
  | none => simp [hc] at h
  | some cfg =>
    simp only [hc] at h
    by_cases hp : buildPrompt a t = ""
    · simp [hp] at h
      subst h
      exact fallback_isValid
    · simp [hp] at h
      subst h
      exact aiOutcomeResult_valid o

theorem analyzeInput_valid (e : AIEnv) (a : Json) (t : String) (o : AIOutcome) :
    isValidResponse (analyzeInput e a t o) = true := by
  unfold analyzeInput
  cases hcfg : isConfiguredAI e with
  | false => simp [hcfg, fallback_isValid]
  | true =>
    simp only [hcfg, if_true]
    cases hres : analyzeWithAzureOpenAI e a t o with
    | error msg => simp [fallback_isValid]
    | ok r => exact analyzeWithAzure_ok_valid e a t o r hres

/-! ## C1 -/

/-- C1: every `AnalysisResult` the analysis pipeline returns — whether
produced by the AI client from a provider response or supplied by the
Fallback Provider — satisfies the Response Schema Validator (accepted
riskLevel literal, string summary, detectedIssues an array of objects
with string id/title/short/long). -/
theorem analysis_results_always_validate :
    (∀ (e : AIEnv) (a : Json) (t : String) (o : AIOutcome),
        isValidResponse (analyzeInput e a t o) = true) ∧
    isValidResponse getMockResult = true :=
  ⟨analyzeInput_valid, rfl⟩

/-! ## C2 -/

/-- A provider interaction yields a usable result only when the call
resolves, the content field is truthy, its text decodes as JSON, and the
decoded value passes the schema validator; every failure mode of the
claim (timeout, non-success status, missing content, malformed JSON,
schema-violating JSON) falsifies this. -/
def providerCallUsable (o : AIOutcome) : Bool :=
  match o with
  | AIOutcome.failure => false
  | AIOutcome.success d =>
    optTruthy (contentOf d) &&
    (match safeJsonParseVal (contentOf d) with
     | some parsed => isValidResponse parsed
     | none => false)

theorem aiOutcomeResult_of_unusable (o : AIOutcome)
    (h : providerCallUsable o = false) : aiOutcomeResult o = getMockResult := by
  cases o with
  | failure => rfl
  | success d =>
    simp only [providerCallUsable, Bool.and_eq_false_iff] at h
    simp only [aiOutcomeResult]
    rcases h with h | h
    · simp [h, analyzeFallback]
    · cases htr : optTruthy (contentOf d) with
      | false => simp [htr, analyzeFallback]
      | true =>
        simp only [htr, Bool.not_true, Bool.false_eq_true, if_false]
        cases hp : safeJsonParseVal (contentOf d) with
        | none => rfl
        | some parsed =>
          simp only [hp] at h
          simp [h, analyzeFallback]

/-- C2: `analyze` is total and degrades exactly to the fallback — for
every input on which the external AI call fails (timeout, non-success
status, missing content field, malformed JSON, or schema-violating JSON),
`analyzeInput` returns exactly the Fallback Provider's result. -/
theorem analyze_degrades_to_fallback (e : AIEnv) (a : Json) (t : String)
    (o : AIOutcome) (h : providerCallUsable o = false) :
    analyzeInput e a t o = getMockResult := by
  unfold analyzeInput
  cases hcfg : isConfiguredAI e with
  | false => simp [analyzeFallback]
  | true =>
    simp only [if_true]
    cases hres : analyzeWithAzureOpenAI e a t o with
    | error msg => simp [analyzeFallback]
    | ok r =>
      simp only []
      unfold analyzeWithAzureOpenAI at hres
      cases hc : aiConfig e with
      | none => simp [hc] at hres
      | some cfg =>
        simp only [hc] at hres
        by_cases hp : buildPrompt a t = ""
        · simp [hp] at hres
          simp [← hres, analyzeFallback]
        · simp [hp] at hres
          simp [← hres, aiOutcomeResult_of_unusable o h]

/-- Witness for C2: a timed-out / failed provider call under a fully
configured environment resolves to exactly the mock fallback. -/
theorem analyze_degrades_to_fallback_witness :
    providerCallUsable AIOutcome.failure = false ∧
    analyzeInput envConfigured (Json.obj []) "" AIOutcome.failure = getMockResult :=
  ⟨rfl, analyze_degrades_to_fallback envConfigured (Json.obj []) "" AIOutcome.failure rfl⟩

/-! ## C3 -/

theorem aiConfig_isSome_of_not_useMock (e : AIEnv) (hu : useMock e = false) :
    (aiConfig e).isSome = true := by
  obtain ⟨epv, kv, dv, mv⟩ := e
  cases epv with
  | none => simp [useMock, envTruthy] at hu
  | some ep =>
    cases kv with
    | none => simp [useMock, envTruthy] at hu
    | some k =>
      cases dv with
      | none => simp [useMock, envTruthy] at hu
      | some d => simp [aiConfig, hu]

theorem isConfiguredAI_characterization (e : AIEnv) :
    isConfiguredAI e =
      (!useMockFlag e && envTruthy e.endpointVar && envTruthy e.keyVar &&
        envTruthy e.deploymentVar) := by
  have hrhs : (!useMockFlag e && envTruthy e.endpointVar && envTruthy e.keyVar &&
      envTruthy e.deploymentVar) = !useMock e := by
    simp [useMock, Bool.not_or, Bool.not_not, Bool.and_assoc]
  rw [hrhs]
  cases hu : useMock e with
  | true => simp [isConfiguredAI, hu]
  | false => simp [isConfiguredAI, hu, aiConfig_isSome_of_not_useMock e hu]

/-- C3: the configuration gate — the AI client attempts the external call
only when endpoint, credential and deployment are all present (truthy)
and the force-mock override is off; in any other configuration
`analyzeInput` returns the fallback for every possible provider
interaction (hence with no network activity); and the spec scenario —
valid answers, no files, OCR and AI unconfigured — yields HTTP 200 with a
body equal to the fixed fallback result. -/
theorem configuration_gate :
    (∀ e : AIEnv, isConfiguredAI e =
      (!useMockFlag e && envTruthy e.endpointVar && envTruthy e.keyVar &&
        envTruthy e.deploymentVar)) ∧
    (∀ (e : AIEnv) (a : Json) (t : String) (o : AIOutcome),
        isConfiguredAI e = false → analyzeInput e a t o = getMockResult) ∧
    analyzeHandler envUnconfigured ocrEnvNone scenarioBody [] AIOutcome.failure
      = ⟨200, getMockResult⟩ := by
  refine ⟨isConfiguredAI_characterization, ?_, rfl⟩
  intro e a t o h
  unfold analyzeInput
  simp [h, analyzeFallback]

/-- Witness for C3: the all-unset environment is not configured, and the
analysis then resolves to the mock regardless of the provider
interaction. -/
theorem configuration_gate_witness :
    isConfiguredAI envUnconfigured = false ∧
    analyzeInput envUnconfigured (Json.obj []) "" (AIOutcome.success (Json.obj []))
      = getMockResult :=
  ⟨rfl, configuration_gate.2.1 envUnconfigured (Json.obj []) ""
    (AIOutcome.success (Json.obj [])) rfl⟩

/-! ## C4 -/

def badJsonBody : Json := Json.obj [("answers", Json.str "\x7bnot valid json")]

/-- Counterexample to C4: for `answers = "\x7bnot valid json"` the JS
endpoint does answer 400, but with the generic error body — not with
`error = "Invalid JSON format in answers field"` as claimed. -/
theorem invalid_json_message_counterexample :
    analyzeHandler envUnconfigured ocrEnvNone badJsonBody [] AIOutcome.failure
      = ⟨400, errBody "Something went wrong. Please try again."⟩ ∧
    "Something went wrong. Please try again." ≠ "Invalid JSON format in answers field" :=
  ⟨rfl, by decide⟩

/-- C4 (amended): for every request whose answers value is a non-empty
string that is not valid JSON, the endpoint responds HTTP 400, but the
body is the generic `error = "Something went wrong. Please try again."`:
`parseAnswers` converts the parse failure into a null answers value,
validation reports that as a missing answers field, and the error handler
substitutes the generic message for every error. -/
theorem invalid_json_answers_yield_400_generic (aiEnv : AIEnv) (ocrEnv : OCREnv)
    (s : String) (files : List OCRInteraction) (o : AIOutcome)
    (hne : s ≠ "") (hbad : jsonParse s = none) :
    analyzeHandler aiEnv ocrEnv (Json.obj [("answers", Json.str s)]) files o
      = ⟨400, errBody "Something went wrong. Please try again."⟩ := by
  have hcand : answersCandidate (Json.obj [("answers", Json.str s)]) = none := by
    simp [answersCandidate, Json.getField, lookupField, optTruthy, Json.isTruthy,
      hne, parseAnswersJS, hbad]
  simp [analyzeHandler, normalize, hcand, finishNormalize, validateAnswersJS,
    optTruthy, jsErrorHandler]

/-- Witness for C4 (amended) at the spec scenario input itself. -/
theorem invalid_json_answers_yield_400_generic_witness :
    ("\x7bnot valid json" : String) ≠ "" ∧
    jsonParse "\x7bnot valid json" = none ∧
    analyzeHandler envUnconfigured ocrEnvNone
        (Json.obj [("answers", Json.str "\x7bnot valid json")]) [] AIOutcome.failure
      = ⟨400, errBody "Something went wrong. Please try again."⟩ :=
  ⟨by decide, rfl,
    invalid_json_answers_yield_400_generic envUnconfigured ocrEnvNone
      "\x7bnot valid json" [] AIOutcome.failure (by decide) rfl⟩

/-! ## C5 -/

/-- A body with a falsy (empty-string) `salarySlip` entry: the claim says
the whole body must then not be used as the answers. -/
def salarySlipBody : Json :=
  Json.obj [("itrForm", Json.str "ITR-1"), ("salarySlip", Json.str "")]

/-- Counterexample to C5: the route checks `salarySlip`/`form26as` by
truthiness, not key presence, so a body carrying a falsy `salarySlip` key
is still accepted whole as the answers instead of yielding
`Answers field is required`. -/
theorem normalizer_sniffing_counterexample :
    normalize salarySlipBody = Except.ok salarySlipBody ∧
    (salarySlipBody.getField "salarySlip").isSome = true ∧
    normalize salarySlipBody ≠ Except.error "Answers field is required" :=
  ⟨rfl, rfl, fun h => Except.noConfusion h⟩

/-- C5 (amended): a body whose `answers` field is truthy is normalized
from that field; when the `answers` field is absent or falsy, the whole
body is used as the answers provided it is a truthy object with at least
one key whose `salarySlip` and `form26as` entries are both absent or
falsy; and when neither source yields a candidate the result is
`InputError("Answers field is required")`. -/
theorem normalizer_acceptance (body : Json) :
    (∀ a, body.getField "answers" = some a → a.isTruthy = true →
        normalize body = finishNormalize (parseAnswersJS a)) ∧
    (optTruthy (body.getField "answers") = false →
        (body.isTruthy && body.isObjectType && body.keyCount ≠ 0 &&
          !optTruthy (body.getField "salarySlip") &&
          !optTruthy (body.getField "form26as")) = true →
        normalize body = finishNormalize (parseAnswersJS body)) ∧
    (answersCandidate body = none →
        normalize body = Except.error "Answers field is required") := by
  refine ⟨?_, ?_, ?_⟩
  · intro a ha htr
    simp [normalize, answersCandidate, ha, optTruthy, htr]
  · intro hfalsy hwhole
    simp only [Bool.and_eq_true, Bool.not_eq_true', decide_eq_true_eq, ne_eq] at hwhole
    obtain ⟨⟨⟨⟨h1, h2⟩, h3⟩, h4⟩, h5⟩ := hwhole
    simp [normalize, answersCandidate, hfalsy, h1, h2, h3, h4, h5]
  · intro hnone
    simp [normalize, hnone, finishNormalize, validateAnswersJS, optTruthy]

/-- Witness for C5 (amended): a nested object answers field is normalized
from that field; a body with only a truthy `salarySlip` key yields the
required-field error. -/
theorem normalizer_acceptance_witness :
    normalize (Json.obj [("answers", Json.obj [("a", Json.bool true)])])
      = finishNormalize (parseAnswersJS (Json.obj [("a", Json.bool true)])) ∧
    normalize (Json.obj [("salarySlip", Json.str "x")])
      = Except.error "Answers field is required" :=
  ⟨(normalizer_acceptance (Json.obj [("answers", Json.obj [("a", Json.bool true)])])).1
      (Json.obj [("a", Json.bool true)]) rfl rfl,
   (normalizer_acceptance (Json.obj [("salarySlip", Json.str "x")])).2.2 rfl⟩

/-! ## Rate limiter lemmas (shared by C6 and C10) -/

theorem storeLookup_storeSet (store : RateStore) (ip : String) (e : RateEntry) :
    storeLookup (storeSet store ip e) ip = some e := by
  induction store with
  | nil => simp [storeSet, storeLookup]
  | cons kv rest ih =>
    obtain ⟨k, old⟩ := kv
    by_cases hk : k = ip
    · simp [storeSet, storeLookup, hk]
    · simp [storeSet, storeLookup, hk, ih]

theorem rateLimitStep_limited (store : RateStore) (ip : String) (now : Nat)
    (e : RateEntry) (hlook : storeLookup (storeCleanup store now) ip = some e)
    (hwin : now ≤ e.resetTime) (hcnt : MAX_REQUESTS ≤ e.count) :
    (rateLimitStep store ip now).2
        = RateDecision.limited ((e.resetTime - now + 999) / 1000) ∧
    storeLookup (rateLimitStep store ip now).1 ip = some ⟨e.count + 1, e.resetTime⟩ := by
  have hnot : ¬ e.resetTime < now := Nat.not_lt.mpr hwin
  have hover : e.count + 1 > MAX_REQUESTS := Nat.lt_succ_of_le hcnt
  simp [rateLimitStep, hlook, hnot, hover, storeLookup_storeSet]

theorem rateLimitStep_reset (store : RateStore) (ip : String) (now : Nat)
    (e : RateEntry) (hlook : storeLookup (storeCleanup store now) ip = some e)
    (hexp : e.resetTime < now) :
    (rateLimitStep store ip now).2 = RateDecision.allowed ∧
    storeLookup (rateLimitStep store ip now).1 ip = some ⟨1, now + WINDOW_MS⟩ := by
  simp [rateLimitStep, hlook, hexp, storeLookup_storeSet]

theorem rateLimitStep_fresh (store : RateStore) (ip : String) (now : Nat)
    (hlook : storeLookup (storeCleanup store now) ip = none) :
    (rateLimitStep store ip now).2 = RateDecision.allowed ∧
    storeLookup (rateLimitStep store ip now).1 ip = some ⟨1, now + WINDOW_MS⟩ := by
  simp [rateLimitStep, hlook, storeLookup_storeSet]

/-! ## C6 -/

/-- A store in which the example IP has exhausted its budget inside the
current window. -/
def exhaustedStore : RateStore := [("9.9.9.9", ⟨100, 2000000000⟩)]

/-- Counterexample to C6: a rate-limited request to the analyze endpoint
is answered with HTTP 429, a fourth status outside the claimed
\x7b200, 400, 500\x7d set. -/
theorem status_codes_counterexample :
    (analyzeEndpointTS exhaustedStore "9.9.9.9" 1000 UploadOutcome.ok scenarioBody
        aiEnvTSNone ocrEnvNone [] AIOutcome.failure).status = 429 ∧
    ((429 : Nat) ≠ 200 ∧ (429 : Nat) ≠ 400 ∧ (429 : Nat) ≠ 500) :=
  ⟨rfl, by decide⟩

/-- C6 (amended): every HTTP response of the analyze endpoint has status
200 (successful normalization, `AnalysisResult` body), 400 (client input
or upload failure, `error` string body), 429 (rate limit exceeded), or
500 (unexpected internal failure) — no fifth status exists. -/
theorem analyze_endpoint_status_codes (store : RateStore) (ip : String) (now : Nat)
    (upload : UploadOutcome) (body : Json) (aiEnv : AIEnvTS) (ocrEnv : OCREnv)
    (files : List OCRInteraction) (outcome : AIOutcome) :
    (analyzeEndpointTS store ip now upload body aiEnv ocrEnv files outcome).status = 200 ∨
    (analyzeEndpointTS store ip now upload body aiEnv ocrEnv files outcome).status = 400 ∨
    (analyzeEndpointTS store ip now upload body aiEnv ocrEnv files outcome).status = 429 ∨
    (analyzeEndpointTS store ip now upload body aiEnv ocrEnv files outcome).status = 500 := by
  unfold analyzeEndpointTS
  cases (rateLimitStep store ip now).2 with
  | limited retryAfter => simp
  | allowed =>
    cases upload with
    | sizeLimit => simp
    | countLimit => simp
    | otherMulter msg => simp
    | otherError msg => simp
    | ok =>
      cases hve : validationErrorsTS (body.getField "answers") with
      | cons msg more => simp [hve]
      | nil =>
        cases htr : optTruthy (body.getField "answers") with
        | false => simp [hve, htr]
        | true =>
          cases hv : body.getField "answers" with
          | none => rw [hv] at htr; simp [optTruthy] at htr
          | some v =>
            rw [hv] at hve htr
            cases v with
            | str s => cases hp : jsonParse s <;> simp [hve, htr, hp]
            | null => simp [hve, htr]
            | bool b => simp [hve, htr]
            | num l => simp [hve, htr]
            | arr xs => simp [hve, htr]
            | obj fs => simp [hve, htr]

/-! ## C10 -/

/-- C10: once an IP's entry has reached the 100-request maximum inside
the current window, every further request increments the count and is
answered 429 with the retry-after second count, without reaching the
analyze pipeline (the response is the fixed rate-limit body for every
upload, body, configuration, file list and provider interaction); the
incremented entry keeps the window, so the rejection persists; and a
request arriving after the reset time starts a fresh count of 1 and is
allowed through. -/
theorem rate_limit_behavior :
    (∀ (store : RateStore) (ip : String) (now : Nat) (e : RateEntry),
        storeLookup (storeCleanup store now) ip = some e →
        now ≤ e.resetTime → MAX_REQUESTS ≤ e.count →
        (rateLimitStep store ip now).2
            = RateDecision.limited ((e.resetTime - now + 999) / 1000) ∧
        storeLookup (rateLimitStep store ip now).1 ip
            = some ⟨e.count + 1, e.resetTime⟩ ∧
        (∀ (upload : UploadOutcome) (body : Json) (aiEnv : AIEnvTS)
            (ocrEnv : OCREnv) (files : List OCRInteraction) (o : AIOutcome),
          analyzeEndpointTS store ip now upload body aiEnv ocrEnv files o
            = ⟨429, Json.obj
                [("error", Json.str "Too many requests. Please try again later."),
                 ("retryAfter", Json.num (toString ((e.resetTime - now + 999) / 1000)))]⟩)) ∧
    (∀ (store : RateStore) (ip : String) (now : Nat) (e : RateEntry),
        storeLookup (storeCleanup store now) ip = some e →
        e.resetTime < now →
        (rateLimitStep store ip now).2 = RateDecision.allowed ∧
        storeLookup (rateLimitStep store ip now).1 ip = some ⟨1, now + WINDOW_MS⟩) ∧
    (∀ (store : RateStore) (ip : String) (now : Nat),
        storeLookup (storeCleanup store now) ip = none →
        (rateLimitStep store ip now).2 = RateDecision.allowed ∧
        storeLookup (rateLimitStep store ip now).1 ip = some ⟨1, now + WINDOW_MS⟩) := by
  refine ⟨?_, rateLimitStep_reset, rateLimitStep_fresh⟩
  intro store ip now e hlook hwin hcnt
  obtain ⟨hdec, hset⟩ := rateLimitStep_limited store ip now e hlook hwin hcnt
  refine ⟨hdec, hset, ?_⟩
  intro upload body aiEnv ocrEnv files o
  unfold analyzeEndpointTS
  rw [hdec]

/-- Witness for C10: an IP at the cap inside its window is rejected with
the computed retry-after and never reaches the pipeline; an expired entry
is reset to a fresh allowed count of 1. -/
theorem rate_limit_behavior_witness :
    (rateLimitStep exhaustedStore "9.9.9.9" 1000).2
        = RateDecision.limited ((2000000000 - 1000 + 999) / 1000) ∧
    analyzeEndpointTS exhaustedStore "9.9.9.9" 1000 UploadOutcome.ok scenarioBody
        aiEnvTSNone ocrEnvNone [] AIOutcome.failure
      = ⟨429, Json.obj
          [("error", Json.str "Too many requests. Please try again later."),
           ("retryAfter", Json.num (toString ((2000000000 - 1000 + 999) / 1000)))]⟩ ∧
    (rateLimitStep exhaustedStore "9.9.9.9" 3000000000).2 = RateDecision.allowed ∧
    storeLookup (rateLimitStep exhaustedStore "9.9.9.9" 3000000000).1 "9.9.9.9"
      = some ⟨1, 3000000000 + WINDOW_MS⟩ := by
  have h1 := rate_limit_behavior.1 exhaustedStore "9.9.9.9" 1000
    ⟨100, 2000000000⟩ rfl (by decide) (by decide)
  have h2 := rate_limit_behavior.2.1 exhaustedStore "9.9.9.9" 3000000000
    ⟨100, 2000000000⟩ rfl (by decide)
  exact ⟨h1.1, h1.2.2 UploadOutcome.ok scenarioBody aiEnvTSNone ocrEnvNone []
    AIOutcome.failure, h2.1, h2.2⟩

/-! ## Poll-loop lemmas for C7 -/

theorem pollLoop_all_nonterminal (poll : Nat → PollOutcome) (s fuel : Nat)
    (h : ∀ k, k < fuel → poll (s + k) = PollOutcome.pending ∨
        poll (s + k) = PollOutcome.pollError) :
    pollLoop poll s fuel = "" := by
  induction fuel generalizing s with
  | zero => rfl
  | succ n ih =>
    have h0 := h 0 (Nat.succ_pos n)
    rw [Nat.add_zero] at h0
    have hrec : pollLoop poll (s + 1) n = "" := by
      apply ih
      intro k hk
      have hsh := h (k + 1) (Nat.succ_lt_succ hk)
      rw [Nat.add_right_comm]
      rwa [← Nat.add_assoc] at hsh
    rcases h0 with h0 | h0 <;> simp [pollLoop, h0, hrec]

theorem pollLoop_first_terminal (poll : Nat → PollOutcome) (s fuel j : Nat)
    (t : PollOutcome) (hj : j < fuel) (ht : poll (s + j) = t)
    (hpre : ∀ k, k < j → poll (s + k) = PollOutcome.pending ∨
        poll (s + k) = PollOutcome.pollError) :
    (t = PollOutcome.failed → pollLoop poll s fuel = "") ∧
    (∀ c, t = PollOutcome.succeeded c → pollLoop poll s fuel = c) := by
  induction fuel generalizing s j with
  | zero => omega
  | succ n ih =>
    cases j with
    | zero =>
      rw [Nat.add_zero] at ht
      constructor
      · intro htf; subst htf; simp [pollLoop, ht]
      · intro c htc; subst htc; simp [pollLoop, ht]
    | succ j' =>
      have h0 := hpre 0 (Nat.succ_pos j')
      rw [Nat.add_zero] at h0
      have hj' : j' < n := Nat.lt_of_succ_lt_succ hj
      have ht' : poll (s + 1 + j') = t := by
        rw [Nat.add_right_comm]
        rw [← Nat.add_assoc] at ht
        exact ht
      have hpre' : ∀ k, k < j' → poll (s + 1 + k) = PollOutcome.pending ∨
          poll (s + 1 + k) = PollOutcome.pollError := by
        intro k hk
        have hsh := hpre (k + 1) (Nat.succ_lt_succ hk)
        rw [Nat.add_right_comm]
        rwa [← Nat.add_assoc] at hsh

      have hrec := ih (s + 1) j' hj' ht' hpre'
      rcases h0 with h0 | h0 <;>
        exact ⟨fun htf => by simp [pollLoop, h0, hrec.1 htf],
               fun c htc => by simp [pollLoop, h0, hrec.2 c htc]⟩

/-! ## C7 -/

/-- C7: per-file OCR extraction polls at the fixed 1-second interval for
at most 10 attempts; a `succeeded` status (first terminal within the
budget) returns the extracted content, `failed` returns the empty string,
exhausting the budget without a terminal status returns the empty string
(a timeout, not a thrown failure), and every submit-phase or protocol
failure likewise degrades the file's contribution to the empty string. -/
theorem ocr_extraction_degradation :
    (pollDelayMs = 1000 ∧ maxAttempts = 10) ∧
    (∀ (e : OCREnv) (poll : Nat → PollOutcome),
        (∀ k, k < maxAttempts → poll k = PollOutcome.pending ∨
            poll k = PollOutcome.pollError) →
        extractText e (OCRInteraction.submitted poll) = "") ∧
    (∀ (e : OCREnv) (poll : Nat → PollOutcome) (j : Nat) (c : String),
        j < maxAttempts → poll j = PollOutcome.succeeded c →
        (∀ k, k < j → poll k = PollOutcome.pending ∨ poll k = PollOutcome.pollError) →
        isConfiguredOCR e = true →
        extractText e (OCRInteraction.submitted poll) = c) ∧
    (∀ (e : OCREnv) (poll : Nat → PollOutcome) (j : Nat),
        j < maxAttempts → poll j = PollOutcome.failed →
        (∀ k, k < j → poll k = PollOutcome.pending ∨ poll k = PollOutcome.pollError) →
        extractText e (OCRInteraction.submitted poll) = "") ∧
    (∀ e : OCREnv, extractText e OCRInteraction.submitError = "" ∧
        extractText e OCRInteraction.noOperationLocation = "" ∧
        extractText e OCRInteraction.noResultId = "") := by
  refine ⟨⟨rfl, rfl⟩, ?_, ?_, ?_, ?_⟩
  · intro e poll h
    cases hc : isConfiguredOCR e with
    | false => simp [extractText, hc]
    | true =>
      have : pollLoop poll 0 maxAttempts = "" := by
        apply pollLoop_all_nonterminal
        intro k hk
        rw [Nat.zero_add]
        exact h k hk
      simp [extractText, hc, this]
  · intro e poll j c hj hsucc hpre hc
    have hfirst := pollLoop_first_terminal poll 0 maxAttempts j
      (PollOutcome.succeeded c) hj (by rw [Nat.zero_add]; exact hsucc)
      (fun k hk => by rw [Nat.zero_add]; exact hpre k hk)
    simp [extractText, hc, hfirst.2 c rfl]
  · intro e poll j hj hfail hpre
    cases hc : isConfiguredOCR e with
    | false => simp [extractText, hc]
    | true =>
      have hfirst := pollLoop_first_terminal poll 0 maxAttempts j
        PollOutcome.failed hj (by rw [Nat.zero_add]; exact hfail)
        (fun k hk => by rw [Nat.zero_add]; exact hpre k hk)
      simp [extractText, hc, hfirst.1 rfl]
  · intro e
    cases hc : isConfiguredOCR e with
    | false => simp [extractText, hc]
    | true => simp [extractText, hc]

/-- Witness for C7: a job that succeeds on the third poll returns its
content; a job that stays pending forever times out to the empty
string. -/
theorem ocr_extraction_degradation_witness :
    extractText ocrEnvSet
        (OCRInteraction.submitted
          (fun i => if i = 2 then PollOutcome.succeeded "page text" else PollOutcome.pending))
      = "page text" ∧
    extractText ocrEnvSet (OCRInteraction.submitted (fun _ => PollOutcome.pending)) = "" := by
  constructor
  · apply ocr_extraction_degradation.2.2.1 ocrEnvSet _ 2 "page text"
      (by decide) (by simp)
    · intro k hk
      interval_cases k <;> simp
    · rfl
  · exact ocr_extraction_degradation.2.1 ocrEnvSet _ (fun k _ => Or.inl rfl)

/-! ## C8 -/

theorem extractText_unconfigured (e : OCREnv) (i : OCRInteraction)
    (hc : isConfiguredOCR e = false) : extractText e i = "" := by
  simp [extractText, hc]

/-- C8: combining per-file extractions — the empty string when OCR is not
configured or the file list is empty; in general the result is exactly
the non-empty per-file results joined with the fixed separator, and that
filtered list is a sublist of the per-file results (input order is
preserved). -/
theorem extract_many_combination :
    (∀ (e : OCREnv) (files : List OCRInteraction), isConfiguredOCR e = false →
        extractTextFromFiles e files = "") ∧
    (∀ e : OCREnv, extractTextFromFiles e [] = "") ∧
    (∀ (e : OCREnv) (files : List OCRInteraction),
        extractTextFromFiles e files =
          String.intercalate ocrSeparator
            ((files.map (extractText e)).filter (fun t => t ≠ ""))) ∧
    (∀ (e : OCREnv) (files : List OCRInteraction),
        ((files.map (extractText e)).filter (fun t => t ≠ "")).Sublist
          (files.map (extractText e))) := by
  have hgen : ∀ (e : OCREnv) (files : List OCRInteraction),
      extractTextFromFiles e files =
        String.intercalate ocrSeparator
          ((files.map (extractText e)).filter (fun t => t ≠ "")) := by
    intro e files
    cases files with
    | nil => rfl
    | cons f fs => simp [extractTextFromFiles]
  refine ⟨?_, fun e => rfl, hgen, fun e files => List.filter_sublist _⟩
  intro e files hc
  rw [hgen]
  have hnil : (files.map (extractText e)).filter (fun t => t ≠ "") = [] := by
    rw [List.filter_eq_nil_iff]
    intro a ha
    rw [List.mem_map] at ha
    obtain ⟨i, _, hi⟩ := ha
    simp [← hi, extractText_unconfigured e i hc]
  rw [hnil]
  rfl

/-- Witness for C8: with OCR unconfigured even a failing submission list
combines to the empty string, and a concrete mixed run drops its empty
results and joins the rest in order. -/
theorem extract_many_combination_witness :
    extractTextFromFiles ocrEnvNone [OCRInteraction.submitError] = "" ∧
    extractTextFromFiles ocrEnvSet
        [OCRInteraction.submitted (fun _ => PollOutcome.succeeded "A"),
         OCRInteraction.submitError,
         OCRInteraction.submitted (fun _ => PollOutcome.succeeded "B")]
      = "A\n\n---\n\nB" :=
  ⟨extract_many_combination.1 ocrEnvNone [OCRInteraction.submitError] rfl, rfl⟩

/-! ## Whitespace and fence lemmas for C9 -/

theorem skipWs_append_ws (w l : List Char) (h : ∀ c ∈ w, isWsChar c = true) :
    skipWs (w ++ l) = skipWs l := by
  induction w with
  | nil => rfl
  | cons c w' ih =>
    have hc := h c (List.mem_cons_self c w')
    rw [List.cons_append, skipWs, hc, if_pos rfl]
    exact ih (fun d hd => h d (List.mem_cons_of_mem c hd))

theorem skipWs_eq_nil_all_ws (l : List Char) (h : skipWs l = []) :
    ∀ c ∈ l, isWsChar c = true := by
  induction l with
  | nil => intro c hc; cases hc
  | cons c l' ih =>
    intro d hd
    cases hc : isWsChar c with
    | true =>
      rw [skipWs, hc, if_pos rfl] at h
      rcases List.mem_cons.mp hd with rfl | hd'
      · exact hc
      · exact ih h d hd'
    | false =>
      rw [skipWs, hc] at h
      simp at h

theorem skipWs_append_of_ne_nil (l w : List Char) (h : skipWs l ≠ []) :
    skipWs (l ++ w) = skipWs l ++ w := by
  induction l with
  | nil => exact absurd rfl h
  | cons c l' ih =>
    cases hc : isWsChar c with
    | true =>
      rw [List.cons_append, skipWs, hc, if_pos rfl, skipWs, hc, if_pos rfl]
      rw [skipWs, hc, if_pos rfl] at h
      exact ih h
    | false =>
      rw [List.cons_append, skipWs, hc, skipWs, hc]
      simp

theorem all_ws_skipWs_nil (w : List Char) (h : ∀ c ∈ w, isWsChar c = true) :
    skipWs w = [] := by
  have hx := skipWs_append_ws w [] h
  simpa using hx

theorem trailing_ws_strip (y w : List Char) (h : ∀ c ∈ w, isWsChar c = true) :
    (skipWs (y ++ w).reverse).reverse = (skipWs y.reverse).reverse := by
  rw [List.reverse_append, skipWs_append_ws w.reverse y.reverse
    (fun c hc => h c (List.mem_reverse.mp hc))]

theorem trimChars_ws_wrap (w1 t w2 : List Char)
    (h1 : ∀ c ∈ w1, isWsChar c = true) (h2 : ∀ c ∈ w2, isWsChar c = true) :
    trimChars (w1 ++ (t ++ w2)) = trimChars t := by
  unfold trimChars
  rw [skipWs_append_ws w1 (t ++ w2) h1]
  by_cases hnil : skipWs t = []
  · rw [skipWs_append_ws t w2 (skipWs_eq_nil_all_ws t hnil), hnil,
      all_ws_skipWs_nil w2 h2]
  · rw [skipWs_append_of_ne_nil t w2 hnil]
    exact trailing_ws_strip (skipWs t) w2 h2

theorem startsWithCh_append_self (pat rest : List Char) :
    startsWithCh pat (pat ++ rest) = true := by
  induction pat with
  | nil => rfl
  | cons p ps ih => simp [startsWithCh, ih]

theorem splitFirst_at_head (pat rest : List Char) (hne : pat ≠ []) :
    splitFirst pat (pat ++ rest) = some ([], rest) := by
  cases pat with
  | nil => exact absurd rfl hne
  | cons p ps =>
    have hsw : startsWithCh (p :: ps) (p :: (ps ++ rest)) = true :=
      startsWithCh_append_self (p :: ps) rest
    show splitFirst (p :: ps) (p :: (ps ++ rest)) = some ([], rest)
    rw [splitFirst, if_pos hsw]
    show some ([], List.drop ps.length (ps ++ rest)) = some ([], rest)
    rw [List.drop_left]

theorem splitFirst_skip (p : Char) (ps l rest pre post : List Char)
    (hl : ∀ c ∈ l, c ≠ p)
    (h : splitFirst (p :: ps) rest = some (pre, post)) :
    splitFirst (p :: ps) (l ++ rest) = some (l ++ pre, post) := by
  induction l with
  | nil => simpa using h
  | cons c l' ih =>
    have hc : p ≠ c := fun hh => hl c (List.mem_cons_self c l') hh.symm
    have hrec := ih (fun d hd => hl d (List.mem_cons_of_mem c hd))
    rw [List.cons_append, splitFirst]
    have hsw : startsWithCh (p :: ps) (c :: (l' ++ rest)) = false := by
      simp [startsWithCh, hc]
    rw [hsw, if_neg (by simp), hrec]
    simp

/-! ## C9 -/

theorem skipWs_cons_tick (x : List Char) : skipWs ('\x60' :: x) = '\x60' :: x := rfl

theorem matchFenceJson_wrap (t : List Char) (hbt : ∀ c ∈ t, c ≠ '\x60') :
    matchFenceJson (("```json").data ++ (('\n' :: (t ++ ['\n'])) ++ ("```").data))
      = some ('\n' :: (t ++ ['\n'])) := by
  unfold matchFenceJson
  rw [splitFirst_at_head (("```json").data) _ (by decide)]
  have hmid : ∀ c ∈ ('\n' :: (t ++ ['\n'])), c ≠ '\x60' := by
    intro c hc
    rcases List.mem_cons.mp hc with rfl | hc'
    · decide
    · rcases List.mem_append.mp hc' with h | h
      · exact hbt c h
      · rw [List.mem_singleton] at h; subst h; decide
  have hticks : splitFirst ('\x60' :: ('\x60' :: ('\x60' :: [])))
      ('\x60' :: ('\x60' :: ('\x60' :: []))) = some ([], []) := by
    have hx := splitFirst_at_head ('\x60' :: ('\x60' :: ('\x60' :: []))) [] (by decide)
    rw [List.append_nil] at hx
    exact hx
  have hsplit := splitFirst_skip '\x60' ('\x60' :: ('\x60' :: []))
    ('\n' :: (t ++ ['\n'])) ('\x60' :: ('\x60' :: ('\x60' :: []))) [] [] hmid hticks
  rw [List.append_nil] at hsplit
  rw [show ("```").data = '\x60' :: ('\x60' :: ('\x60' :: [])) from rfl]
  show (match splitFirst ('\x60' :: ('\x60' :: ('\x60' :: [])))
      (('\n' :: (t ++ ['\n'])) ++ ('\x60' :: ('\x60' :: ('\x60' :: [])))) with
    | none => none
    | some (inner, _) => some inner) = some ('\n' :: (t ++ ['\n']))
  rw [hsplit]

theorem trimChars_fenced (t : List Char) :
    trimChars (("```json").data ++ (('\n' :: (t ++ ['\n'])) ++ ("```").data))
      = ("```json").data ++ (('\n' :: (t ++ ['\n'])) ++ ("```").data) := by
  have hcons : ("```json").data ++ (('\n' :: (t ++ ['\n'])) ++ ("```").data)
      = '\x60' :: (('\x60' :: ('\x60' :: ('j' :: ('s' :: ('o' :: ('n' :: []))))))
        ++ (('\n' :: (t ++ ['\n'])) ++ ("```").data)) := rfl
  have hskip1 : skipWs (("```json").data ++ (('\n' :: (t ++ ['\n'])) ++ ("```").data))
      = ("```json").data ++ (('\n' :: (t ++ ['\n'])) ++ ("```").data) := by
    rw [hcons]; exact skipWs_cons_tick _
  have hrev : (("```json").data ++ (('\n' :: (t ++ ['\n'])) ++ ("```").data)).reverse
      = '\x60' :: ('\x60' :: ('\x60' ::
          (('\n' :: (t ++ ['\n'])).reverse ++ ("```json").data.reverse))) := by
    rw [List.reverse_append, List.reverse_append,
      show (("```").data).reverse = ['\x60', '\x60', '\x60'] from rfl]
    simp [List.append_assoc]
  unfold trimChars
  rw [hskip1, hrev, skipWs_cons_tick, ← hrev, List.reverse_reverse]

theorem safeJsonParse_fenced (t : List Char) (hbt : ∀ c ∈ t, c ≠ '\x60') :
    safeJsonParse (String.mk (("```json").data ++ (('\n' :: (t ++ ['\n'])) ++ ("```").data)))
      = jsonParseL (trimChars t) := by
  have hne : String.mk (("```json").data ++ (('\n' :: (t ++ ['\n'])) ++ ("```").data)) ≠ "" := by
    intro hh
    have hdata := congrArg String.data hh
    simp [show ("```json").data
      = '\x60' :: ('\x60' :: ('\x60' :: ('j' :: ('s' :: ('o' :: ('n' :: []))))))
      from rfl] at hdata
  unfold safeJsonParse
  rw [if_neg hne]
  show jsonParseL (match matchFenceJson (trimChars (("```json").data
      ++ (('\n' :: (t ++ ['\n'])) ++ ("```").data))) with
    | some inner => trimChars inner
    | none =>
      match matchFenceAny (trimChars (("```json").data
          ++ (('\n' :: (t ++ ['\n'])) ++ ("```").data))) with
      | some inner => trimChars inner
      | none => trimChars (("```json").data
          ++ (('\n' :: (t ++ ['\n'])) ++ ("```").data))) = jsonParseL (trimChars t)
  rw [trimChars_fenced, matchFenceJson_wrap t hbt]
  show jsonParseL (trimChars (['\n'] ++ (t ++ ['\n']))) = jsonParseL (trimChars t)
  rw [trimChars_ws_wrap ['\n'] t ['\n'] (by decide) (by decide)]

def exampleDecoded : Json :=
  Json.obj [("riskLevel", Json.str "LOW"), ("summary", Json.str "ok"),
    ("detectedIssues", Json.arr [])]

/-- The claim's concrete AI content string, fenced with a json tag. -/
def exampleContent : String :=
  "```json\n\x7b\"riskLevel\":\"LOW\",\"summary\":\"ok\",\"detectedIssues\":[]\x7d\n```"

/-- The same content fenced without a language tag. -/
def exampleContentNoTag : String :=
  "```\n\x7b\"riskLevel\":\"LOW\",\"summary\":\"ok\",\"detectedIssues\":[]\x7d\n```"

/-- C9: decoding an AI content string strips a surrounding triple-backtick
fence — in general for any backtick-free fenced text, what remains is
trimmed and parsed as JSON — and on the claim's concrete content string
(with or without the json language tag) the decoded value is exactly
`\x7briskLevel:"LOW", summary:"ok", detectedIssues:[]\x7d`. -/
theorem markdown_unwrap :
    (∀ t : List Char, (∀ c ∈ t, c ≠ '\x60') →
        safeJsonParse (String.mk (("```json").data
            ++ (('\n' :: (t ++ ['\n'])) ++ ("```").data)))
          = jsonParseL (trimChars t)) ∧
    safeJsonParse exampleContent = some exampleDecoded ∧
    safeJsonParse exampleContentNoTag = some exampleDecoded :=
  ⟨safeJsonParse_fenced, rfl, rfl⟩

/-- Witness for C9: the general fence-strip theorem applied to a concrete
backtick-free JSON text. -/
theorem markdown_unwrap_witness :
    safeJsonParse (String.mk (("```json").data
        ++ (('\n' :: ((("\x7b\"ok\":true\x7d").data) ++ ['\n'])) ++ ("```").data)))
      = jsonParseL (trimChars (("\x7b\"ok\":true\x7d").data)) :=
  markdown_unwrap.1 (("\x7b\"ok\":true\x7d").data) (by decide)

end TaxeSafe

